import Mathlib

/-!
Shallow embedding of the pdf-tracker server (`src/server.js`).

The server keeps one JSON document mapping a tracking identifier to a
`TrackingRecord`; every HTTP handler is a synchronous read-modify-write of
that document.  We model the document as an association list that preserves
JS-object insertion order (new keys are appended, assignments to an existing
key keep its position), and the uploads directory as a list of file names.
Request-supplied or nondeterministic data (timestamps, UUIDs, IPs, hosts)
are passed in as parameters.
-/

namespace PdfTracker

/-- One access-log entry (`accessLog` object built in `logAccess`), with the
optional fields that `/api/track-page` metadata and `/api/track-session`
mutation can add. -/
structure AccessLogEntry where
  timestamp : String
  action : String
  ip : String
  userAgent : String
  page : Option Nat
  timeSpent : Option Nat
  pagesViewed : Option Nat
  totalPages : Option Nat
  completion : Option Nat
  deriving Repr, DecidableEq

/-- The record created by `POST /api/upload` and stored under its trackingId. -/
structure TrackingRecord where
  trackingId : String
  shortId : String
  originalName : String
  fileName : String
  uploadedAt : String
  accessLogs : List AccessLogEntry
  totalViews : Nat
  totalDownloads : Nat
  allowDownload : Bool
  viewerUrl : String
  deriving Repr, DecidableEq

/-- Server state: the `data/tracking.json` document (association list keyed by
trackingId, in JS-object insertion order) and the names of the files in the
`uploads/` directory. -/
structure Store where
  records : List (String × TrackingRecord)
  files : List String
  deriving Repr, DecidableEq

/-- The empty state: `tracking.json` initialized to `{}` and no uploads. -/
def emptyStore : Store := { records := [], files := [] }

/-- Request metadata the handlers read (`new Date().toISOString()`, `req.ip`,
`req.get('user-agent')`). -/
structure ReqInfo where
  timestamp : String
  ip : String
  userAgent : String
  deriving Repr, DecidableEq

/-- JS `trackingData[trackingId]` lookup. -/
def findRecord (s : Store) (trackingId : String) : Option TrackingRecord :=
  (s.records.find? (fun p => p.1 == trackingId)).map Prod.snd

/-- JS `trackingData[trackingId] = r`: replaces the value at an existing key in
place, otherwise appends the new key at the end (JS-object insertion order). -/
def setRecord (l : List (String × TrackingRecord)) (trackingId : String)
    (r : TrackingRecord) : List (String × TrackingRecord) :=
  if l.any (fun p => p.1 == trackingId) then
    l.map (fun p => if p.1 == trackingId then (trackingId, r) else p)
  else
    l ++ [(trackingId, r)]

/-- JS assignment to a key known to be present (used by handlers that only
mutate an existing record). -/
def updateRecords (l : List (String × TrackingRecord)) (trackingId : String)
    (r : TrackingRecord) : List (String × TrackingRecord) :=
  l.map (fun p => if p.1 == trackingId then (trackingId, r) else p)

/-- The `accessLog` object `logAccess` builds: timestamp, action, ip,
user-agent, plus the spread metadata (`page` is the only metadata field any
caller passes, from `/api/track-page`). -/
def mkAccessLog (action : String) (req : ReqInfo) (page : Option Nat) :
    AccessLogEntry :=
  { timestamp := req.timestamp, action := action, ip := req.ip,
    userAgent := req.userAgent, page := page, timeSpent := none,
    pagesViewed := none, totalPages := none, completion := none }

/-- The record after `logAccess` pushes the entry and bumps the counter that
matches the action (`if view ... else if download ...`). -/
def logUpdated (r : TrackingRecord) (action : String) (req : ReqInfo)
    (page : Option Nat) : TrackingRecord :=
  { r with
    accessLogs := r.accessLogs ++ [mkAccessLog action req page],
    totalViews := if action == "view" then r.totalViews + 1 else r.totalViews,
    totalDownloads :=
      if action == "view" then r.totalDownloads
      else if action == "download" then r.totalDownloads + 1
      else r.totalDownloads }

/-- The `logAccess` helper: appends an access-log entry and bumps the matching
counter; returns `false` (and leaves the store alone) for an unknown id. -/
def logAccess (s : Store) (trackingId action : String) (req : ReqInfo)
    (page : Option Nat) : Store × Bool :=
  match findRecord s trackingId with
  | none => (s, false)
  | some r =>
    ({ s with records :=
        updateRecords s.records trackingId (logUpdated r action req page) },
      true)

/-- File as multer hands it to the upload pipeline. -/
structure UploadFile where
  originalname : String
  mimetype : String
  deriving Repr, DecidableEq

/-- Outcome of `POST /api/upload`: 400 when no file was sent, the multer
fileFilter error for a non-PDF content type, or the success JSON. -/
inductive UploadResult where
  | noFile : UploadResult
  | rejected : UploadResult
  | ok (trackingId shortId : String) : UploadResult
  deriving Repr, DecidableEq

/-- The fresh record `POST /api/upload` stores: short id is the first
dash-separated segment of the tracking id, counters start at zero with an
empty log, the stored file name is `uuid-originalname`. -/
def uploadRecord (f : UploadFile) (storageUuid trackingId now serverUrl : String) :
    TrackingRecord :=
  { trackingId := trackingId,
    shortId := (trackingId.splitOn "-").headD "",
    originalName := f.originalname,
    fileName := storageUuid ++ "-" ++ f.originalname,
    uploadedAt := now, accessLogs := [], totalViews := 0,
    totalDownloads := 0, allowDownload := true,
    viewerUrl := serverUrl ++ "/v/" ++ (trackingId.splitOn "-").headD "" }

/-- The upload pipeline (`upload.single('pdf')` plus the handler): the
fileFilter rejects anything whose declared mimetype is not `application/pdf`
before the file is stored; otherwise multer stores the file and the handler
creates a fresh record.  `storageUuid`, `trackingId`, `now`, `serverUrl`
stand for the nondeterministic inputs. -/
def uploadOp (s : Store) (file : Option UploadFile)
    (storageUuid trackingId now serverUrl : String) : Store × UploadResult :=
  match file with
  | none => (s, .noFile)
  | some f =>
    if f.mimetype == "application/pdf" then
      let r := uploadRecord f storageUuid trackingId now serverUrl
      ({ records := setRecord s.records trackingId r,
         files := s.files ++ [r.fileName] }, .ok trackingId r.shortId)
    else
      (s, .rejected)

/-- JS `Object.entries(trackingData).find(([_, d]) => d.shortId === shortId)`. -/
def findByShortId (s : Store) (shortId : String) :
    Option (String × TrackingRecord) :=
  s.records.find? (fun p => p.2.shortId == shortId)

/-- Outcome of `GET /v/:shortId`: the 404 page or the viewer HTML for the
resolved record. -/
inductive ViewResult where
  | notFound : ViewResult
  | page (trackingId : String) : ViewResult
  deriving Repr, DecidableEq

/-- `GET /v/:shortId`: resolves the short id by linear scan, logs a `view`
access on a hit, and serves the viewer page. -/
def viewOp (s : Store) (shortId : String) (req : ReqInfo) : Store × ViewResult :=
  match findByShortId s shortId with
  | none => (s, .notFound)
  | some (trackingId, _) =>
    ((logAccess s trackingId "view" req none).1, .page trackingId)

/-- JSON response of the always-200 POST tracking endpoints versus the 404
JSON error of the keyed lookups. -/
inductive ApiResp where
  | success : ApiResp
  | notFound : ApiResp
  deriving Repr, DecidableEq

/-- `POST /api/log-download`: logs a `download` access and answers
`{success: true}` regardless of whether the id was known. -/
def logDownloadOp (s : Store) (trackingId : String) (req : ReqInfo) :
    Store × ApiResp :=
  ((logAccess s trackingId "download" req none).1, .success)

/-- `POST /api/track-page`: logs a `page_view` access carrying the page number
and answers `{success: true}` regardless of whether the id was known. -/
def trackPageOp (s : Store) (trackingId : String) (page : Nat) (req : ReqInfo) :
    Store × ApiResp :=
  ((logAccess s trackingId "page_view" req (some page)).1, .success)

/-- The completion percentage `/api/track-session` stores:
`totalPages > 0 ? Math.round((pagesViewed / totalPages) * 100) : 0`,
written with exact natural arithmetic (`Math.round` rounds half up, so
`round(100*p/t) = (200*p + t) / (2*t)` in truncating division). -/
def jsCompletion (pagesViewed totalPages : Nat) : Nat :=
  if 0 < totalPages then (200 * pagesViewed + totalPages) / (2 * totalPages)
  else 0

/-- The in-place mutation `/api/track-session` applies to the last log entry. -/
def sessionUpdated (e : AccessLogEntry) (timeSpent pagesViewed totalPages : Nat) :
    AccessLogEntry :=
  { e with
    timeSpent := some timeSpent,
    pagesViewed := some pagesViewed,
    totalPages := some totalPages,
    completion := some (jsCompletion pagesViewed totalPages) }

/-- `POST /api/track-session`: when the id is known, the log is nonempty and
its last entry is a `view`, that entry is mutated in place and the document
saved; in every other case nothing is written.  The response is always
`{success: true}`. -/
def trackSessionOp (s : Store) (trackingId : String)
    (timeSpent pagesViewed totalPages : Nat) : Store × ApiResp :=
  match findRecord s trackingId with
  | none => (s, .success)
  | some r =>
    match r.accessLogs.getLast? with
    | none => (s, .success)
    | some lastLog =>
      if lastLog.action == "view" then
        let r' : TrackingRecord :=
          { r with accessLogs :=
              r.accessLogs.dropLast ++
                [sessionUpdated lastLog timeSpent pagesViewed totalPages] }
        ({ s with records := updateRecords s.records trackingId r' }, .success)
      else (s, .success)

/-- Response of `GET /api/stats/:trackingId`. -/
inductive StatsResult where
  | notFound : StatsResult
  | ok (r : TrackingRecord) : StatsResult
  deriving Repr, DecidableEq

/-- `GET /api/stats/:trackingId`: read-only record lookup. -/
def statsOp (s : Store) (trackingId : String) : StatsResult :=
  match findRecord s trackingId with
  | none => .notFound
  | some r => .ok r

/-- Response of `GET /get-pdf/:trackingId`. -/
inductive PdfResult where
  | notFound : PdfResult
  | fileMissing : PdfResult
  | pdfFile (fileName : String) : PdfResult
  deriving Repr, DecidableEq

/-- `GET /get-pdf/:trackingId`: serves the stored file's raw bytes. -/
def getPdfOp (s : Store) (trackingId : String) : PdfResult :=
  match findRecord s trackingId with
  | none => .notFound
  | some r =>
    if s.files.contains r.fileName then .pdfFile r.fileName else .fileMissing

/-- Response of `GET /download/:trackingId`. -/
inductive DownloadResult where
  | notFound : DownloadResult
  | fileMissing : DownloadResult
  | attachment (fileName originalName : String) : DownloadResult
  deriving Repr, DecidableEq

/-- `GET /download/:trackingId`: serves the stored file as an attachment named
by the original file name. -/
def downloadOp (s : Store) (trackingId : String) : DownloadResult :=
  match findRecord s trackingId with
  | none => .notFound
  | some r =>
    if s.files.contains r.fileName then .attachment r.fileName r.originalName
    else .fileMissing

/-- `DELETE /api/delete/:trackingId`: 404 for an unknown id; otherwise unlinks
the backing file (when present) and deletes the record. -/
def deleteOp (s : Store) (trackingId : String) : Store × ApiResp :=
  match findRecord s trackingId with
  | none => (s, .notFound)
  | some r =>
    ({ records := s.records.filter (fun p => ¬(p.1 == trackingId)),
       files := if s.files.contains r.fileName then s.files.erase r.fileName
                else s.files }, .success)

/-- Number of `view` entries in a log. -/
def viewCount (logs : List AccessLogEntry) : Nat :=
  logs.countP (fun e => e.action == "view")

/-- Number of `download` entries in a log. -/
def downloadCount (logs : List AccessLogEntry) : Nat :=
  logs.countP (fun e => e.action == "download")

/-- A record's counters agree with its log. -/
def RecordConsistent (r : TrackingRecord) : Prop :=
  r.totalViews = viewCount r.accessLogs ∧
  r.totalDownloads = downloadCount r.accessLogs

/-- Every record in the store has counters that agree with its log. -/
def StoreConsistent (s : Store) : Prop :=
  ∀ p ∈ s.records, RecordConsistent p.2

/-- One server operation, as a transition on the store. -/
inductive Step : Store → Store → Prop where
  | upload (s : Store) (file : Option UploadFile) (su tid now url : String) :
      Step s (uploadOp s file su tid now url).1
  | view (s : Store) (sid : String) (req : ReqInfo) :
      Step s (viewOp s sid req).1
  | logDownload (s : Store) (tid : String) (req : ReqInfo) :
      Step s (logDownloadOp s tid req).1
  | trackPage (s : Store) (tid : String) (pg : Nat) (req : ReqInfo) :
      Step s (trackPageOp s tid pg req).1
  | trackSession (s : Store) (tid : String) (ts pv tp : Nat) :
      Step s (trackSessionOp s tid ts pv tp).1
  | del (s : Store) (tid : String) :
      Step s (deleteOp s tid).1

/-- Stores reachable from the empty store by server operations. -/
inductive Reachable : Store → Prop where
  | init : Reachable emptyStore
  | step (s s' : Store) : Reachable s → Step s s' → Reachable s'

/-- The record as `/api/track-session` leaves it when the last entry was a
`view`: the last log entry replaced by its session-updated version. -/
def sessionRecord (r : TrackingRecord) (e : AccessLogEntry) (ts pv tp : Nat) :
    TrackingRecord :=
  { r with accessLogs := r.accessLogs.dropLast ++ [sessionUpdated e ts pv tp] }

/-- Shape of a record's log that `trackSessionOp` can never change: its length
and everything before the last entry. -/
def logShape (r : TrackingRecord) : Nat × List AccessLogEntry :=
  (r.accessLogs.length, r.accessLogs.dropLast)

/-! Concrete data used by the witnesses. -/

def sampleReq : ReqInfo :=
  { timestamp := "2026-01-02T03:04:05.000Z", ip := "10.0.0.1",
    userAgent := "Mozilla/5.0" }

def sampleViewEntry : AccessLogEntry :=
  { timestamp := "2026-01-01T00:00:00.000Z", action := "view", ip := "10.0.0.9",
    userAgent := "Safari", page := none, timeSpent := none, pagesViewed := none,
    totalPages := none, completion := none }

def sampleRecord : TrackingRecord :=
  { trackingId := "abc-1", shortId := "abc", originalName := "doc.pdf",
    fileName := "u1-doc.pdf", uploadedAt := "2025-12-31T00:00:00.000Z",
    accessLogs := [sampleViewEntry], totalViews := 1, totalDownloads := 0,
    allowDownload := true, viewerUrl := "http://localhost:3000/v/abc" }

def sampleStore : Store :=
  { records := [("abc-1", sampleRecord)], files := ["u1-doc.pdf"] }

def samplePdf : UploadFile :=
  { originalname := "report.pdf", mimetype := "application/pdf" }

/-- A second record whose shortId collides with `sampleRecord`'s (short ids
are never checked for uniqueness by the server). -/
def collideRecord : TrackingRecord :=
  { trackingId := "abc-2", shortId := "abc", originalName := "doc2.pdf",
    fileName := "u9-doc2.pdf", uploadedAt := "2025-12-30T00:00:00.000Z",
    accessLogs := [], totalViews := 0, totalDownloads := 0,
    allowDownload := true, viewerUrl := "http://localhost:3000/v/abc" }

/-- A store holding two records that share the short id `abc`. -/
def collideStore : Store :=
  { records := [("abc-1", sampleRecord), ("abc-2", collideRecord)],
    files := ["u1-doc.pdf", "u9-doc2.pdf"] }

def sampleBadFile : UploadFile :=
  { originalname := "notes.txt", mimetype := "text/plain" }

/-! Helper lemmas about lookups and updates. -/

theorem updateRecords_cons_eq (x : String × TrackingRecord)
    (xs : List (String × TrackingRecord)) (tid : String) (r : TrackingRecord)
    (hx : x.1 = tid) :
    updateRecords (x :: xs) tid r = (tid, r) :: updateRecords xs tid r := by
  simp [updateRecords, hx]

theorem updateRecords_cons_ne (x : String × TrackingRecord)
    (xs : List (String × TrackingRecord)) (tid : String) (r : TrackingRecord)
    (hx : ¬ x.1 = tid) :
    updateRecords (x :: xs) tid r = x :: updateRecords xs tid r := by
  simp [updateRecords, hx]

theorem find?_updateRecords_self (l : List (String × TrackingRecord))
    (tid : String) (r : TrackingRecord)
    (h : (l.find? (fun p => p.1 == tid)).isSome = true) :
    (updateRecords l tid r).find? (fun p => p.1 == tid) = some (tid, r) := by
  induction l with
  | nil => simp at h
  | cons x xs ih =>
    by_cases hx : x.1 = tid
    · rw [updateRecords_cons_eq x xs tid r hx,
        List.find?_cons_of_pos _ (by simp)]
    · rw [updateRecords_cons_ne x xs tid r hx,
        List.find?_cons_of_neg _ (by simp [hx])]
      rw [List.find?_cons_of_neg _ (by simp [hx])] at h
      exact ih h

theorem find?_updateRecords_ne (l : List (String × TrackingRecord))
    (tid k : String) (r : TrackingRecord) (hk : k ≠ tid) :
    (updateRecords l tid r).find? (fun p => p.1 == k) =
      l.find? (fun p => p.1 == k) := by
  induction l with
  | nil => simp [updateRecords]
  | cons x xs ih =>
    by_cases hx : x.1 = tid
    · rw [updateRecords_cons_eq x xs tid r hx,
        @List.find?_cons_of_neg _ (fun p => p.1 == k) (tid, r)
          (updateRecords xs tid r) (by simp; exact fun h => hk h.symm),
        @List.find?_cons_of_neg _ (fun p => p.1 == k) x xs
          (by simp [hx]; exact fun h => hk h.symm), ih]
    · rw [updateRecords_cons_ne x xs tid r hx]
      by_cases hxk : x.1 = k
      · rw [@List.find?_cons_of_pos _ (fun p => p.1 == k) x
            (updateRecords xs tid r) (by simp [hxk]),
          @List.find?_cons_of_pos _ (fun p => p.1 == k) x xs (by simp [hxk])]
      · rw [@List.find?_cons_of_neg _ (fun p => p.1 == k) x
            (updateRecords xs tid r) (by simp [hxk]),
          @List.find?_cons_of_neg _ (fun p => p.1 == k) x xs (by simp [hxk]),
          ih]

theorem findRecord_update_self (s : Store) (tid : String) (r r' : TrackingRecord)
    (h : findRecord s tid = some r) :
    findRecord { s with records := updateRecords s.records tid r' } tid =
      some r' := by
  unfold findRecord at *
  rcases hf : s.records.find? (fun p => p.1 == tid) with _ | p
  · simp [hf] at h
  · rw [find?_updateRecords_self s.records tid r' (by simp [hf])]
    rfl

theorem findRecord_update_ne (s : Store) (tid k : String) (r' : TrackingRecord)
    (hk : k ≠ tid) :
    findRecord { s with records := updateRecords s.records tid r' } k =
      findRecord s k := by
  unfold findRecord
  rw [find?_updateRecords_ne s.records tid k r' hk]

theorem mem_of_findRecord (s : Store) (tid : String) (r : TrackingRecord)
    (h : findRecord s tid = some r) : (tid, r) ∈ s.records := by
  unfold findRecord at h
  rcases hf : s.records.find? (fun p => p.1 == tid) with _ | p
  · simp [hf] at h
  · have hmem := List.mem_of_find?_eq_some hf
    have hpred := List.find?_some hf
    have h1 : p.1 = tid := by simpa using hpred
    have h2 : p.2 = r := by simp [hf] at h; exact h
    have : p = (tid, r) := by
      cases p; simp_all
    rwa [this] at hmem

theorem dropLast_concat_getLast? {α : Type} {l : List α} {a : α}
    (h : l.getLast? = some a) : l.dropLast ++ [a] = l := by
  induction l with
  | nil => simp at h
  | cons x xs ih =>
    cases xs with
    | nil => simp at h; simp [h]
    | cons y ys =>
      have h' : (y :: ys).getLast? = some a := by
        simpa [List.getLast?_cons_cons] using h
      have := ih h'
      simp [List.dropLast_cons₂, this]

theorem getLast?_ne_nil {α : Type} {l : List α} {a : α}
    (h : l.getLast? = some a) : l ≠ [] := by
  intro he; subst he; simp at h

theorem find?_setRecord_self (l : List (String × TrackingRecord))
    (tid : String) (r : TrackingRecord) :
    (setRecord l tid r).find? (fun p => p.1 == tid) = some (tid, r) := by
  unfold setRecord
  by_cases h : l.any (fun p => p.1 == tid) = true
  · rw [if_pos h]
    have hs : (l.find? (fun p => p.1 == tid)).isSome = true := by
      rw [List.find?_isSome]
      exact List.any_eq_true.mp h
    have := find?_updateRecords_self l tid r hs
    unfold updateRecords at this
    exact this
  · rw [if_neg h]
    have hnone : l.find? (fun p => p.1 == tid) = none := by
      rw [List.find?_eq_none]
      intro x hx hpx
      exact h (List.any_eq_true.mpr ⟨x, hx, hpx⟩)
    rw [List.find?_append, hnone]
    simp

theorem findRecord_setRecord_self (l : List (String × TrackingRecord))
    (fs : List String) (tid : String) (r : TrackingRecord) :
    findRecord { records := setRecord l tid r, files := fs } tid = some r := by
  unfold findRecord
  rw [find?_setRecord_self]
  rfl

theorem find?_key_of_find?_short (l : List (String × TrackingRecord))
    (sid tid : String) (r : TrackingRecord)
    (hnd : (l.map Prod.fst).Nodup)
    (h : l.find? (fun p => p.2.shortId == sid) = some (tid, r)) :
    l.find? (fun p => p.1 == tid) = some (tid, r) := by
  induction l with
  | nil => simp at h
  | cons x xs ih =>
    rw [List.map_cons, List.nodup_cons] at hnd
    by_cases hx : x.2.shortId = sid
    · rw [List.find?_cons_of_pos _ (by simp [hx])] at h
      have hx2 : x = (tid, r) := by simpa using h
      rw [hx2]
      exact List.find?_cons_of_pos _ (by simp)
    · rw [List.find?_cons_of_neg _ (by simp [hx])] at h
      have hmem : (tid, r) ∈ xs := List.mem_of_find?_eq_some h
      have hx1 : ¬ x.1 = tid := by
        intro he
        exact hnd.1 (he ▸ (List.mem_map_of_mem Prod.fst hmem : tid ∈ xs.map Prod.fst))
      rw [List.find?_cons_of_neg _ (by simp [hx1])]
      exact ih hnd.2 h

theorem jsCompletion_eq_round (p t : Nat) :
    (jsCompletion p t : ℤ) = round ((p : ℚ) / (t : ℚ) * 100) := by
  unfold jsCompletion
  by_cases ht : 0 < t
  · rw [if_pos ht, round_eq]
    have ht0 : (t : ℚ) ≠ 0 := by exact_mod_cast ht.ne'
    have key : (p : ℚ) / (t : ℚ) * 100 + 1 / 2 =
        ((200 * p + t : ℕ) : ℚ) / ((2 * t : ℕ) : ℚ) := by
      push_cast
      field_simp
      ring
    rw [key, ← Int.natCast_floor_eq_floor (by positivity),
      Nat.floor_div_eq_div]
  · rw [if_neg ht]
    have h0 : t = 0 := Nat.eq_zero_of_not_pos ht
    subst h0
    simp

/-! Characterizations of `trackSessionOp` on its four branches. -/

theorem trackSessionOp_unknown (s : Store) (tid : String) (ts pv tp : Nat)
    (hr : findRecord s tid = none) :
    trackSessionOp s tid ts pv tp = (s, .success) := by
  simp only [trackSessionOp, hr]

theorem trackSessionOp_emptyLog (s : Store) (tid : String) (ts pv tp : Nat)
    (r : TrackingRecord) (hr : findRecord s tid = some r)
    (he : r.accessLogs.getLast? = none) :
    trackSessionOp s tid ts pv tp = (s, .success) := by
  simp only [trackSessionOp, hr, he]

theorem trackSessionOp_notView (s : Store) (tid : String) (ts pv tp : Nat)
    (r : TrackingRecord) (e : AccessLogEntry) (hr : findRecord s tid = some r)
    (he : r.accessLogs.getLast? = some e) (hv : ¬ e.action = "view") :
    trackSessionOp s tid ts pv tp = (s, .success) := by
  simp only [trackSessionOp, hr, he]
  rw [if_neg (by simp [hv])]

theorem trackSessionOp_view (s : Store) (tid : String) (ts pv tp : Nat)
    (r : TrackingRecord) (e : AccessLogEntry) (hr : findRecord s tid = some r)
    (he : r.accessLogs.getLast? = some e) (hv : e.action = "view") :
    trackSessionOp s tid ts pv tp =
      ({ s with records :=
          updateRecords s.records tid (sessionRecord r e ts pv tp) },
        .success) := by
  simp only [trackSessionOp, hr, he, sessionRecord]
  rw [if_pos (by simp [hv])]

theorem sessionRecord_length (r : TrackingRecord) (e : AccessLogEntry)
    (ts pv tp : Nat) (he : r.accessLogs.getLast? = some e) :
    (sessionRecord r e ts pv tp).accessLogs.length = r.accessLogs.length := by
  have hne := getLast?_ne_nil he
  simp only [sessionRecord, List.length_append, List.length_dropLast,
    List.length_singleton]
  exact Nat.succ_pred_eq_of_pos (List.length_pos.mpr hne)

theorem sessionRecord_dropLast (r : TrackingRecord) (e : AccessLogEntry)
    (ts pv tp : Nat) :
    (sessionRecord r e ts pv tp).accessLogs.dropLast =
      r.accessLogs.dropLast := by
  simp [sessionRecord, List.dropLast_concat]

theorem trackSessionOp_preserves_shape (s : Store) (tid : String)
    (ts pv tp : Nat) (k : String) :
    (findRecord (trackSessionOp s tid ts pv tp).1 k).map logShape =
      (findRecord s k).map logShape := by
  cases hr : findRecord s tid with
  | none => rw [trackSessionOp_unknown s tid ts pv tp hr]
  | some r =>
    cases he : r.accessLogs.getLast? with
    | none => rw [trackSessionOp_emptyLog s tid ts pv tp r hr he]
    | some e =>
      by_cases hv : e.action = "view"
      · rw [trackSessionOp_view s tid ts pv tp r e hr he hv]
        dsimp only
        by_cases hk : k = tid
        · subst hk
          rw [findRecord_update_self s k r (sessionRecord r e ts pv tp) hr, hr]
          simp only [Option.map_some', logShape,
            sessionRecord_length r e ts pv tp he,
            sessionRecord_dropLast r e ts pv tp]
        · rw [findRecord_update_ne s tid k (sessionRecord r e ts pv tp) hk]
      · rw [trackSessionOp_notView s tid ts pv tp r e hr he hv]

/-! Characterizations of `logAccess` and `uploadOp`. -/

theorem logAccess_unknown (s : Store) (tid action : String) (req : ReqInfo)
    (page : Option Nat) (hr : findRecord s tid = none) :
    logAccess s tid action req page = (s, false) := by
  simp only [logAccess, hr]

theorem logAccess_found (s : Store) (tid action : String) (req : ReqInfo)
    (page : Option Nat) (r : TrackingRecord) (hr : findRecord s tid = some r) :
    logAccess s tid action req page =
      ({ s with records :=
          updateRecords s.records tid (logUpdated r action req page) },
        true) := by
  simp only [logAccess, hr]

theorem findRecord_of_findByShortId (s : Store) (sid tid : String)
    (r : TrackingRecord) (hnd : (s.records.map Prod.fst).Nodup)
    (h : findByShortId s sid = some (tid, r)) :
    findRecord s tid = some r := by
  unfold findByShortId at h
  unfold findRecord
  rw [find?_key_of_find?_short s.records sid tid r hnd h]
  rfl

theorem uploadOp_accepted (s : Store) (f : UploadFile)
    (su tid now url : String) (hmime : f.mimetype = "application/pdf") :
    uploadOp s (some f) su tid now url =
      ({ records := setRecord s.records tid (uploadRecord f su tid now url),
         files := s.files ++ [(uploadRecord f su tid now url).fileName] },
        .ok tid (uploadRecord f su tid now url).shortId) := by
  simp only [uploadOp]
  rw [if_pos (by simp [hmime])]

/-- C1: for every POST /api/track-session request whose trackingId resolves to
a record whose log's last entry is a view entry, the completion value written
to that entry equals round(pagesViewed/totalPages × 100), and equals 0 when
totalPages is 0. -/
theorem claim1_trackSession_completion (s : Store) (tid : String)
    (ts pv tp : Nat) (r : TrackingRecord) (e : AccessLogEntry)
    (hr : findRecord s tid = some r)
    (he : r.accessLogs.getLast? = some e)
    (hv : e.action = "view") :
    ∃ r' c, findRecord (trackSessionOp s tid ts pv tp).1 tid = some r' ∧
      r'.accessLogs.getLast? = some (sessionUpdated e ts pv tp) ∧
      (sessionUpdated e ts pv tp).completion = some c ∧
      (c : ℤ) = round ((pv : ℚ) / (tp : ℚ) * 100) ∧
      (tp = 0 → c = 0) := by
  rw [trackSessionOp_view s tid ts pv tp r e hr he hv]
  refine ⟨sessionRecord r e ts pv tp, jsCompletion pv tp, ?_, ?_, ?_, ?_, ?_⟩
  · exact findRecord_update_self s tid r (sessionRecord r e ts pv tp) hr
  · simp [sessionRecord, List.getLast?_concat]
  · rfl
  · exact jsCompletion_eq_round pv tp
  · intro h0
    subst h0
    simp [jsCompletion]

/-- Witness for C1 at a concrete store and request. -/
theorem claim1_witness :
    ∃ r' c, findRecord (trackSessionOp sampleStore "abc-1" 30 2 4).1 "abc-1" =
        some r' ∧
      r'.accessLogs.getLast? = some (sessionUpdated sampleViewEntry 30 2 4) ∧
      (sessionUpdated sampleViewEntry 30 2 4).completion = some c ∧
      (c : ℤ) = round (((2 : Nat) : ℚ) / ((4 : Nat) : ℚ) * 100) ∧
      ((4 : Nat) = 0 → c = 0) :=
  claim1_trackSession_completion sampleStore "abc-1" 30 2 4 sampleRecord
    sampleViewEntry rfl rfl rfl

/-- C2: every POST /api/track-session call mutates the most recent view log
entry of the addressed record in place (setting timeSpent, pagesViewed,
totalPages, completion) and never appends a new entry: for every record
state, the length of every record's access-log sequence and every log entry
other than the most recent one are unchanged by track-session. -/
theorem claim2_trackSession_no_append (s : Store) (tid : String)
    (ts pv tp : Nat) :
    (∀ k, (findRecord (trackSessionOp s tid ts pv tp).1 k).map logShape =
        (findRecord s k).map logShape) ∧
    (∀ r e, findRecord s tid = some r → r.accessLogs.getLast? = some e →
        e.action = "view" →
        findRecord (trackSessionOp s tid ts pv tp).1 tid =
          some (sessionRecord r e ts pv tp) ∧
        (sessionRecord r e ts pv tp).accessLogs.getLast? =
          some (sessionUpdated e ts pv tp)) := by
  constructor
  · exact fun k => trackSessionOp_preserves_shape s tid ts pv tp k
  · intro r e hr he hv
    rw [trackSessionOp_view s tid ts pv tp r e hr he hv]
    exact ⟨findRecord_update_self s tid r (sessionRecord r e ts pv tp) hr,
      by simp [sessionRecord, List.getLast?_concat]⟩

/-- Witness for C2 at a concrete store and request. -/
theorem claim2_witness :
    findRecord (trackSessionOp sampleStore "abc-1" 30 2 4).1 "abc-1" =
      some (sessionRecord sampleRecord sampleViewEntry 30 2 4) ∧
    (sessionRecord sampleRecord sampleViewEntry 30 2 4).accessLogs.getLast? =
      some (sessionUpdated sampleViewEntry 30 2 4) :=
  (claim2_trackSession_no_append sampleStore "abc-1" 30 2 4).2 sampleRecord
    sampleViewEntry rfl rfl rfl

/-- C9: POST /api/track-session responds success and leaves the store
entirely unchanged whenever the trackingId is unknown, the addressed
record's access log is empty, or the last log entry's action is not view. -/
theorem claim9_trackSession_silent_drop (s : Store) (tid : String)
    (ts pv tp : Nat) :
    (findRecord s tid = none →
      trackSessionOp s tid ts pv tp = (s, ApiResp.success)) ∧
    (∀ r, findRecord s tid = some r → r.accessLogs = [] →
      trackSessionOp s tid ts pv tp = (s, ApiResp.success)) ∧
    (∀ r e, findRecord s tid = some r → r.accessLogs.getLast? = some e →
      ¬ e.action = "view" →
      trackSessionOp s tid ts pv tp = (s, ApiResp.success)) := by
  refine ⟨fun h => trackSessionOp_unknown s tid ts pv tp h,
    fun r hr hnil => trackSessionOp_emptyLog s tid ts pv tp r hr (by
      simp [hnil]),
    fun r e hr he hv => trackSessionOp_notView s tid ts pv tp r e hr he hv⟩

/-- Witness for C9: an unknown trackingId is silently accepted. -/
theorem claim9_witness :
    trackSessionOp sampleStore "zzz" 5 1 2 = (sampleStore, ApiResp.success) :=
  (claim9_trackSession_silent_drop sampleStore "zzz" 5 1 2).1 rfl

/-- C3: every GET /v/:shortId request that resolves to a record increments
its totalViews counter by exactly one and appends exactly one access-log
entry with action `view`; the record's other counter (totalDownloads) is
unchanged. -/
theorem claim3_view_increments (s : Store) (sid : String) (req : ReqInfo)
    (tid : String) (r : TrackingRecord)
    (hnd : (s.records.map Prod.fst).Nodup)
    (hfind : findByShortId s sid = some (tid, r)) :
    ∃ r', findRecord (viewOp s sid req).1 tid = some r' ∧
      r'.totalViews = r.totalViews + 1 ∧
      r'.totalDownloads = r.totalDownloads ∧
      r'.accessLogs = r.accessLogs ++ [mkAccessLog "view" req none] ∧
      (mkAccessLog "view" req none).action = "view" ∧
      (viewOp s sid req).2 = ViewResult.page tid := by
  have hr := findRecord_of_findByShortId s sid tid r hnd hfind
  have hview : viewOp s sid req =
      ((logAccess s tid "view" req none).1, .page tid) := by
    simp only [viewOp, hfind]
  rw [hview, logAccess_found s tid "view" req none r hr]
  refine ⟨logUpdated r "view" req none, ?_, ?_, ?_, rfl, rfl, rfl⟩
  · exact findRecord_update_self s tid r (logUpdated r "view" req none) hr
  · simp [logUpdated]
  · simp [logUpdated]

/-- Witness for C3 at a concrete store. -/
theorem claim3_witness :
    ∃ r', findRecord (viewOp sampleStore "abc" sampleReq).1 "abc-1" =
        some r' ∧
      r'.totalViews = sampleRecord.totalViews + 1 ∧
      r'.totalDownloads = sampleRecord.totalDownloads ∧
      r'.accessLogs = sampleRecord.accessLogs ++
        [mkAccessLog "view" sampleReq none] ∧
      (mkAccessLog "view" sampleReq none).action = "view" ∧
      (viewOp sampleStore "abc" sampleReq).2 = ViewResult.page "abc-1" :=
  claim3_view_increments sampleStore "abc" sampleReq "abc-1" sampleRecord
    (by simp [sampleStore]) rfl

/-- C4: immediately after a successful upload, GET /api/stats/:trackingId for
the returned trackingId yields a record with totalViews = 0,
totalDownloads = 0, and an empty access-log sequence. -/
theorem claim4_upload_zero_stats (s : Store) (f : UploadFile)
    (su tid now url : String) (hmime : f.mimetype = "application/pdf") :
    statsOp (uploadOp s (some f) su tid now url).1 tid =
      StatsResult.ok (uploadRecord f su tid now url) ∧
    (uploadRecord f su tid now url).totalViews = 0 ∧
    (uploadRecord f su tid now url).totalDownloads = 0 ∧
    (uploadRecord f su tid now url).accessLogs = [] := by
  rw [uploadOp_accepted s f su tid now url hmime]
  refine ⟨?_, rfl, rfl, rfl⟩
  simp only [statsOp]
  rw [findRecord_setRecord_self]

/-- Witness for C4 at a concrete store. -/
theorem claim4_witness :
    statsOp (uploadOp sampleStore (some samplePdf) "u2" "beef-2" "t1" "h").1
        "beef-2" =
      StatsResult.ok (uploadRecord samplePdf "u2" "beef-2" "t1" "h") ∧
    (uploadRecord samplePdf "u2" "beef-2" "t1" "h").totalViews = 0 ∧
    (uploadRecord samplePdf "u2" "beef-2" "t1" "h").totalDownloads = 0 ∧
    (uploadRecord samplePdf "u2" "beef-2" "t1" "h").accessLogs = [] :=
  claim4_upload_zero_stats sampleStore samplePdf "u2" "beef-2" "t1" "h" rfl

/-- C5: an upload whose file's declared content-type is not application/pdf
is rejected and the record store (records and files alike) is unchanged. -/
theorem claim5_reject_non_pdf (s : Store) (f : UploadFile)
    (su tid now url : String) (hmime : f.mimetype ≠ "application/pdf") :
    uploadOp s (some f) su tid now url = (s, UploadResult.rejected) := by
  simp only [uploadOp]
  rw [if_neg (by simp [hmime])]

/-- Witness for C5 at a concrete store. -/
theorem claim5_witness :
    uploadOp sampleStore (some sampleBadFile) "u3" "cafe-3" "t2" "h" =
      (sampleStore, UploadResult.rejected) :=
  claim5_reject_non_pdf sampleStore sampleBadFile "u3" "cafe-3" "t2" "h"
    (by simp [sampleBadFile])

/-- C8: the server deduplicates nothing: each /api/track-page call on a known
record appends one `page_view` entry, so two calls with the same trackingId
and the same page number append two entries. -/
theorem claim8_trackPage_no_dedup (s : Store) (tid : String) (pg : Nat)
    (req1 req2 : ReqInfo) (r : TrackingRecord)
    (hr : findRecord s tid = some r) :
    ∃ r1 r2, findRecord (trackPageOp s tid pg req1).1 tid = some r1 ∧
      r1.accessLogs = r.accessLogs ++ [mkAccessLog "page_view" req1 (some pg)] ∧
      findRecord (trackPageOp (trackPageOp s tid pg req1).1 tid pg req2).1 tid =
        some r2 ∧
      r2.accessLogs = r.accessLogs ++
        [mkAccessLog "page_view" req1 (some pg),
         mkAccessLog "page_view" req2 (some pg)] ∧
      (mkAccessLog "page_view" req1 (some pg)).action = "page_view" ∧
      (mkAccessLog "page_view" req1 (some pg)).page = some pg ∧
      (trackPageOp s tid pg req1).2 = ApiResp.success := by
  have h1 : (trackPageOp s tid pg req1).1 =
      { s with records :=
          updateRecords s.records tid (logUpdated r "page_view" req1 (some pg)) } := by
    simp only [trackPageOp]
    rw [logAccess_found s tid "page_view" req1 (some pg) r hr]
  have hr1 : findRecord (trackPageOp s tid pg req1).1 tid =
      some (logUpdated r "page_view" req1 (some pg)) := by
    rw [h1]
    exact findRecord_update_self s tid r (logUpdated r "page_view" req1 (some pg)) hr
  have h2 : (trackPageOp (trackPageOp s tid pg req1).1 tid pg req2).1 =
      { (trackPageOp s tid pg req1).1 with records := updateRecords ((trackPageOp s tid pg req1).1).records tid (logUpdated (logUpdated r "page_view" req1 (some pg)) "page_view" req2 (some pg)) } := by
    simp only [trackPageOp]
    rw [logAccess_found ((logAccess s tid "page_view" req1 (some pg)).1) tid
      "page_view" req2 (some pg) (logUpdated r "page_view" req1 (some pg)) hr1]
  refine ⟨logUpdated r "page_view" req1 (some pg),
    logUpdated (logUpdated r "page_view" req1 (some pg)) "page_view" req2
      (some pg), hr1, by simp [logUpdated], ?_, ?_, rfl, rfl, rfl⟩
  · rw [h2]
    exact findRecord_update_self ((trackPageOp s tid pg req1).1) tid
      (logUpdated r "page_view" req1 (some pg))
      (logUpdated (logUpdated r "page_view" req1 (some pg)) "page_view" req2
        (some pg)) hr1
  · simp [logUpdated]

/-! Claim C6: the deletion claim fails as stated, because short ids are not
unique; a collision keeps the viewer resolving after the delete. -/

theorem deleteOp_found (s : Store) (tid : String) (r : TrackingRecord)
    (hr : findRecord s tid = some r) :
    deleteOp s tid =
      ({ records := s.records.filter (fun p => ¬(p.1 == tid)),
         files := if s.files.contains r.fileName then s.files.erase r.fileName
                  else s.files }, .success) := by
  simp only [deleteOp, hr]

theorem findRecord_after_delete (s : Store) (tid : String) (r : TrackingRecord)
    (hr : findRecord s tid = some r) :
    findRecord (deleteOp s tid).1 tid = none := by
  rw [deleteOp_found s tid r hr]
  unfold findRecord
  rw [show (List.find? (fun p => p.1 == tid) (s.records.filter (fun p => ¬(p.1 == tid)))) = none from ?_]
  · rfl
  · rw [List.find?_eq_none]
    intro x hx
    have := (List.mem_filter.mp hx).2
    simp at this
    simp [this]

/-- Counterexample to C6 as stated: in a store where a second record shares
the deleted record's short id, the viewer request for that short id still
resolves after the delete instead of returning not-found. -/
theorem claim6_counterexample :
    (viewOp (deleteOp collideStore "abc-1").1 "abc" sampleReq).2 =
      ViewResult.page "abc-2" ∧
    (viewOp (deleteOp collideStore "abc-1").1 "abc" sampleReq).2 ≠
      ViewResult.notFound := by
  exact ⟨by decide, by decide⟩

/-- C6 (amended): DELETE /api/delete/:trackingId removes the record and its
backing file, and subsequent stats, download, and get-pdf requests for that
trackingId return not-found; the viewer request for the record's shortId
returns not-found provided no other record shares that shortId. -/
theorem claim6_delete_removes (s : Store) (tid : String) (r : TrackingRecord)
    (req : ReqInfo) (hr : findRecord s tid = some r)
    (hfiles : s.files.Nodup)
    (hshort : ∀ p ∈ s.records, p.1 ≠ tid → p.2.shortId ≠ r.shortId) :
    (deleteOp s tid).2 = ApiResp.success ∧
    findRecord (deleteOp s tid).1 tid = none ∧
    r.fileName ∉ (deleteOp s tid).1.files ∧
    statsOp (deleteOp s tid).1 tid = StatsResult.notFound ∧
    downloadOp (deleteOp s tid).1 tid = DownloadResult.notFound ∧
    getPdfOp (deleteOp s tid).1 tid = PdfResult.notFound ∧
    viewOp (deleteOp s tid).1 r.shortId req =
      ((deleteOp s tid).1, ViewResult.notFound) := by
  have hnone := findRecord_after_delete s tid r hr
  have hfile : r.fileName ∉ (deleteOp s tid).1.files := by
    rw [deleteOp_found s tid r hr]
    by_cases hc : s.files.contains r.fileName = true
    · simp only [hc, if_true]
      exact hfiles.not_mem_erase
    · simp only [hc, if_false]
      intro hmem
      exact hc (List.elem_eq_true_of_mem hmem)
  have hshortNone : findByShortId (deleteOp s tid).1 r.shortId = none := by
    rw [deleteOp_found s tid r hr]
    unfold findByShortId
    rw [List.find?_eq_none]
    intro x hx
    have hxmem := List.mem_filter.mp hx
    have hxne : x.1 ≠ tid := by
      have := hxmem.2
      simp at this
      simp [this]
    have := hshort x hxmem.1 hxne
    simp [this]
  refine ⟨by rw [deleteOp_found s tid r hr], hnone, hfile, ?_, ?_, ?_, ?_⟩
  · simp only [statsOp, hnone]
  · simp only [downloadOp, hnone]
  · simp only [getPdfOp, hnone]
  · simp only [viewOp, hshortNone]

/-- Witness for the amended C6 at a concrete store without collisions. -/
theorem claim6_witness :
    (deleteOp sampleStore "abc-1").2 = ApiResp.success ∧
    findRecord (deleteOp sampleStore "abc-1").1 "abc-1" = none ∧
    sampleRecord.fileName ∉ (deleteOp sampleStore "abc-1").1.files ∧
    statsOp (deleteOp sampleStore "abc-1").1 "abc-1" =
      StatsResult.notFound ∧
    downloadOp (deleteOp sampleStore "abc-1").1 "abc-1" =
      DownloadResult.notFound ∧
    getPdfOp (deleteOp sampleStore "abc-1").1 "abc-1" = PdfResult.notFound ∧
    viewOp (deleteOp sampleStore "abc-1").1 sampleRecord.shortId sampleReq =
      ((deleteOp sampleStore "abc-1").1, ViewResult.notFound) :=
  claim6_delete_removes sampleStore "abc-1" sampleRecord sampleReq rfl
    (by decide) (by decide)

/-! Claim C7: the claim fails as stated — the body-identified POST endpoints
answer `{success: true}` even for an unknown identifier. -/

/-- Counterexample to C7 as stated: POST /api/log-download with an unknown
trackingId answers success, not a not-found error, and leaves the store
unchanged. -/
theorem claim7_counterexample :
    (logDownloadOp emptyStore "nope" sampleReq).2 = ApiResp.success ∧
    (logDownloadOp emptyStore "nope" sampleReq).2 ≠ ApiResp.notFound ∧
    (logDownloadOp emptyStore "nope" sampleReq).1 = emptyStore := by
  exact ⟨rfl, by decide, rfl⟩

/-- C7 (amended): for an identifier not present in the store, the keyed
lookups (stats, download, get-pdf, delete) fail with not-found, while the
body-identified POST endpoints (log-download, track-page, track-session)
answer success and leave the store unchanged. -/
theorem claim7_unknown_id (s : Store) (tid : String) (req : ReqInfo)
    (ts pv tp pg : Nat) (hr : findRecord s tid = none) :
    statsOp s tid = StatsResult.notFound ∧
    downloadOp s tid = DownloadResult.notFound ∧
    getPdfOp s tid = PdfResult.notFound ∧
    deleteOp s tid = (s, ApiResp.notFound) ∧
    logDownloadOp s tid req = (s, ApiResp.success) ∧
    trackPageOp s tid pg req = (s, ApiResp.success) ∧
    trackSessionOp s tid ts pv tp = (s, ApiResp.success) := by
  refine ⟨?_, ?_, ?_, ?_, ?_, ?_, trackSessionOp_unknown s tid ts pv tp hr⟩
  · simp only [statsOp, hr]
  · simp only [downloadOp, hr]
  · simp only [getPdfOp, hr]
  · simp only [deleteOp, hr]
  · simp only [logDownloadOp, logAccess_unknown s tid "download" req none hr]
  · simp only [trackPageOp, logAccess_unknown s tid "page_view" req (some pg) hr]

/-- Witness for the amended C7 on the empty store. -/
theorem claim7_witness :
    statsOp emptyStore "x" = StatsResult.notFound ∧
    downloadOp emptyStore "x" = DownloadResult.notFound ∧
    getPdfOp emptyStore "x" = PdfResult.notFound ∧
    deleteOp emptyStore "x" = (emptyStore, ApiResp.notFound) ∧
    logDownloadOp emptyStore "x" sampleReq = (emptyStore, ApiResp.success) ∧
    trackPageOp emptyStore "x" 1 sampleReq = (emptyStore, ApiResp.success) ∧
    trackSessionOp emptyStore "x" 1 2 3 = (emptyStore, ApiResp.success) :=
  claim7_unknown_id emptyStore "x" sampleReq 1 2 3 1 rfl

/-- Witness for C8 at a concrete store. -/
theorem claim8_witness :
    ∃ r1 r2, findRecord (trackPageOp sampleStore "abc-1" 3 sampleReq).1
        "abc-1" = some r1 ∧
      r1.accessLogs = sampleRecord.accessLogs ++
        [mkAccessLog "page_view" sampleReq (some 3)] ∧
      findRecord (trackPageOp (trackPageOp sampleStore "abc-1" 3 sampleReq).1
          "abc-1" 3 sampleReq).1 "abc-1" = some r2 ∧
      r2.accessLogs = sampleRecord.accessLogs ++
        [mkAccessLog "page_view" sampleReq (some 3),
         mkAccessLog "page_view" sampleReq (some 3)] ∧
      (mkAccessLog "page_view" sampleReq (some 3)).action = "page_view" ∧
      (mkAccessLog "page_view" sampleReq (some 3)).page = some 3 ∧
      (trackPageOp sampleStore "abc-1" 3 sampleReq).2 = ApiResp.success :=
  claim8_trackPage_no_dedup sampleStore "abc-1" 3 sampleReq sampleReq
    sampleRecord rfl

/-! Claim C10: counters agree with the log in every reachable store. -/

theorem mem_updateRecords (l : List (String × TrackingRecord)) (tid : String)
    (r' : TrackingRecord) (q : String × TrackingRecord)
    (hq : q ∈ updateRecords l tid r') : q ∈ l ∨ q = (tid, r') := by
  unfold updateRecords at hq
  rcases List.mem_map.mp hq with ⟨p, hp, heq⟩
  by_cases hx : (p.1 == tid) = true
  · right
    rw [← heq]
    simp [hx]
  · left
    rw [← heq]
    simp only [hx, Bool.false_eq_true, if_false]
    exact hp

theorem mem_setRecord (l : List (String × TrackingRecord)) (tid : String)
    (r : TrackingRecord) (q : String × TrackingRecord)
    (hq : q ∈ setRecord l tid r) : q ∈ l ∨ q = (tid, r) := by
  unfold setRecord at hq
  by_cases h : l.any (fun p => p.1 == tid) = true
  · rw [if_pos h] at hq
    exact mem_updateRecords l tid r q hq
  · rw [if_neg h] at hq
    rcases List.mem_append.mp hq with hl | hr
    · exact Or.inl hl
    · exact Or.inr (by simpa using hr)

theorem recordConsistent_logUpdated (r : TrackingRecord) (action : String)
    (req : ReqInfo) (page : Option Nat) (h : RecordConsistent r) :
    RecordConsistent (logUpdated r action req page) := by
  obtain ⟨hv, hd⟩ := h
  constructor
  · show (if action == "view" then r.totalViews + 1 else r.totalViews) = _
    unfold viewCount at *
    rw [show (logUpdated r action req page).accessLogs =
        r.accessLogs ++ [mkAccessLog action req page] from rfl,
      List.countP_append]
    by_cases ha : (action == "view") = true
    · simp [ha, mkAccessLog, List.countP_cons, hv]
    · simp [ha, mkAccessLog, List.countP_cons, hv]
  · show (if action == "view" then r.totalDownloads
        else if action == "download" then r.totalDownloads + 1
        else r.totalDownloads) = _
    unfold downloadCount at *
    rw [show (logUpdated r action req page).accessLogs =
        r.accessLogs ++ [mkAccessLog action req page] from rfl,
      List.countP_append]
    by_cases ha : (action == "view") = true
    · have : action = "view" := by simpa using ha
      subst this
      simp [List.countP_cons, mkAccessLog, hd]
    · by_cases hb : (action == "download") = true
      · simp [ha, hb, mkAccessLog, List.countP_cons, hd]
      · simp [ha, hb, mkAccessLog, List.countP_cons, hd]

theorem recordConsistent_sessionRecord (r : TrackingRecord)
    (e : AccessLogEntry) (ts pv tp : Nat)
    (he : r.accessLogs.getLast? = some e) (h : RecordConsistent r) :
    RecordConsistent (sessionRecord r e ts pv tp) := by
  obtain ⟨hv, hd⟩ := h
  have hsplit := dropLast_concat_getLast? he
  constructor
  · show r.totalViews = viewCount (r.accessLogs.dropLast ++ [sessionUpdated e ts pv tp])
    rw [hv]
    unfold viewCount
    conv_lhs => rw [← hsplit]
    simp [List.countP_append, List.countP_cons, sessionUpdated]
  · show r.totalDownloads = downloadCount (r.accessLogs.dropLast ++ [sessionUpdated e ts pv tp])
    rw [hd]
    unfold downloadCount
    conv_lhs => rw [← hsplit]
    simp [List.countP_append, List.countP_cons, sessionUpdated]

theorem logAccess_preserves_consistent (s : Store) (tid action : String)
    (req : ReqInfo) (page : Option Nat) (hc : StoreConsistent s) :
    StoreConsistent (logAccess s tid action req page).1 := by
  cases hr : findRecord s tid with
  | none =>
    rw [logAccess_unknown s tid action req page hr]
    exact hc
  | some r =>
    rw [logAccess_found s tid action req page r hr]
    intro p hp
    rcases mem_updateRecords s.records tid (logUpdated r action req page) p hp
      with hold | hnew
    · exact hc p hold
    · rw [hnew]
      exact recordConsistent_logUpdated r action req page
        (hc (tid, r) (mem_of_findRecord s tid r hr))

theorem step_preserves_consistent (s s' : Store) (h : Step s s')
    (hc : StoreConsistent s) : StoreConsistent s' := by
  cases h with
  | upload file su tid now url =>
    cases file with
    | none => exact hc
    | some f =>
      by_cases hm : (f.mimetype == "application/pdf") = true
      · rw [show (uploadOp s (some f) su tid now url).1 =
            { records := setRecord s.records tid (uploadRecord f su tid now url),
              files := s.files ++ [(uploadRecord f su tid now url).fileName] } by
            rw [uploadOp_accepted s f su tid now url (by simpa using hm)]]
        intro p hp
        rcases mem_setRecord s.records tid (uploadRecord f su tid now url) p hp
          with hold | hnew
        · exact hc p hold
        · rw [hnew]
          constructor
          · rfl
          · rfl
      · rw [show (uploadOp s (some f) su tid now url).1 = s by
            simp only [uploadOp]; rw [if_neg hm]]
        exact hc
  | view sid req =>
    cases hf : findByShortId s sid with
    | none =>
      rw [show (viewOp s sid req).1 = s by simp only [viewOp, hf]]
      exact hc
    | some q =>
      rw [show (viewOp s sid req).1 = (logAccess s q.1 "view" req none).1 by
          simp only [viewOp, hf]]
      exact logAccess_preserves_consistent s q.1 "view" req none hc
  | logDownload tid req =>
    exact logAccess_preserves_consistent s tid "download" req none hc
  | trackPage tid pg req =>
    exact logAccess_preserves_consistent s tid "page_view" req (some pg) hc
  | trackSession tid ts pv tp =>
    cases hr : findRecord s tid with
    | none =>
      rw [show (trackSessionOp s tid ts pv tp).1 = s by
          rw [trackSessionOp_unknown s tid ts pv tp hr]]
      exact hc
    | some r =>
      cases he : r.accessLogs.getLast? with
      | none =>
        rw [show (trackSessionOp s tid ts pv tp).1 = s by
            rw [trackSessionOp_emptyLog s tid ts pv tp r hr he]]
        exact hc
      | some e =>
        by_cases hv : e.action = "view"
        · rw [show (trackSessionOp s tid ts pv tp).1 =
              { s with records :=
                  updateRecords s.records tid (sessionRecord r e ts pv tp) } by
              rw [trackSessionOp_view s tid ts pv tp r e hr he hv]]
          intro p hp
          rcases mem_updateRecords s.records tid (sessionRecord r e ts pv tp) p
            hp with hold | hnew
          · exact hc p hold
          · rw [hnew]
            exact recordConsistent_sessionRecord r e ts pv tp he
              (hc (tid, r) (mem_of_findRecord s tid r hr))
        · rw [show (trackSessionOp s tid ts pv tp).1 = s by
              rw [trackSessionOp_notView s tid ts pv tp r e hr he hv]]
          exact hc
  | del tid =>
    cases hr : findRecord s tid with
    | none =>
      rw [show (deleteOp s tid).1 = s by simp only [deleteOp, hr]]
      exact hc
    | some r =>
      rw [deleteOp_found s tid r hr]
      intro p hp
      exact hc p (List.mem_filter.mp hp).1

/-- C10: in every store reachable from the empty store by upload, view,
log-download, track-page, track-session, and delete operations, each
record's totalViews equals the number of its `view` log entries and its
totalDownloads equals the number of its `download` log entries. -/
theorem claim10_counters_invariant (s : Store) (h : Reachable s) :
    StoreConsistent s := by
  induction h with
  | init =>
    intro p hp
    simp [emptyStore] at hp
  | step s s' _ hstep ih =>
    exact step_preserves_consistent s s' hstep ih

/-- Witness for C10: the store after one concrete upload is reachable, and
its counters agree with its (empty) log. -/
theorem claim10_witness :
    StoreConsistent (uploadOp emptyStore (some samplePdf) "u1" "ab-1" "t" "h").1 :=
  claim10_counters_invariant
    (uploadOp emptyStore (some samplePdf) "u1" "ab-1" "t" "h").1
    (Reachable.step emptyStore
      (uploadOp emptyStore (some samplePdf) "u1" "ab-1" "t" "h").1
      Reachable.init
      (Step.upload emptyStore (some samplePdf) "u1" "ab-1" "t" "h"))

end PdfTracker
